import Mathlib

/-!
Verification development for the VB6-to-.NET converter backend
(`Backend/server.py`, `Backend/routes.py`).

The Python source is shallowly embedded: pure fragments become Lean
functions, the stateful parts (SSE progress handler, orchestrator run,
artifact store) become explicit state passing.  External collaborators
(the inference service, JSON decoding of its replies, the filesystem
read of an input file) are passed in as parameters, exactly at the
interface boundaries the source consumes them through.
-/

namespace VB6

/-- Embeds the Python `AgentState` enum of `server.py`. -/
inductive AgentState
  | Idle
  | Running
  | Completed
  | Failed
deriving DecidableEq, Repr

/-- String value of an `AgentState`, as `state.value` in the source
(`Idle`/`Running`/`Completed`/`Failed`). -/
def AgentState.value : AgentState → String
  | .Idle => "Idle"
  | .Running => "Running"
  | .Completed => "Completed"
  | .Failed => "Failed"

/-- The attributes of a Python log record that `SSELogHandler.emit` reads
via `getattr` (`event_type`, `stage`, `agent`, `state`). -/
structure LogRecord where
  event_type : String
  stage : String
  agent : Option String
  state : Option String
deriving DecidableEq, Repr

/-- The mutable state of `SSELogHandler`: `self.progress` and
`self.current_agent`.  `total_stages` is the constant 6. -/
structure SSEHandler where
  progress : Nat
  current_agent : Option String
deriving DecidableEq, Repr

/-- `self.total_stages = 6` in `SSELogHandler.__init__`. -/
def total_stages : Nat := 6

/-- A fresh handler, as built by `SSELogHandler.__init__`
(`self.progress = 0`, `self.current_agent = None`). -/
def SSEHandler.init : SSEHandler := { progress := 0, current_agent := none }

/-- The event dictionary `SSELogHandler.emit` pushes on its queue
(the fields the claims are about). -/
structure SSEEvent where
  event_type : String
  stage : String
  agent : Option String
  state : Option String
  current_agent : Option String
  progress : Nat
deriving DecidableEq, Repr

/-- Embeds `SSELogHandler.emit`: updates `current_agent`, then updates
`progress` (`min(progress + 100 // total_stages, 100)` on a
`state_update` carrying `Completed`), then enqueues the event built from
the updated fields.  Returns the new handler state and the event. -/
def SSELogHandler.emit (h : SSEHandler) (r : LogRecord) : SSEHandler × SSEEvent :=
  let ca :=
    if r.event_type = "state_update" ∧ r.state = some AgentState.Running.value then
      r.agent
    else if r.event_type = "state_update" ∧
        (r.state = some AgentState.Completed.value ∨ r.state = some AgentState.Failed.value) then
      (if h.current_agent = r.agent then none else h.current_agent)
    else h.current_agent
  let p :=
    if r.event_type = "state_update" ∧ r.state = some AgentState.Completed.value then
      min (h.progress + 100 / total_stages) 100
    else h.progress
  (⟨p, ca⟩,
   { event_type := r.event_type, stage := r.stage, agent := r.agent, state := r.state,
     current_agent := ca, progress := p })

/-- Feeding a list of log records through `SSELogHandler.emit` in order,
collecting the emitted events. -/
def emitAll : SSEHandler → List LogRecord → SSEHandler × List SSEEvent
  | h, [] => (h, [])
  | h, r :: rs =>
    let he := SSELogHandler.emit h r
    let rest := emitAll he.1 rs
    (rest.1, he.2 :: rest.2)

/-- Whether a record is a `state_update` carrying state `Completed` —
the one condition under which `emit` changes `self.progress`. -/
def isCompletedUpdate (r : LogRecord) : Prop :=
  r.event_type = "state_update" ∧ r.state = some AgentState.Completed.value

instance (r : LogRecord) : Decidable (isCompletedUpdate r) := by
  unfold isCompletedUpdate; infer_instance

/-- Number of `Completed` state-update records in a list. -/
def completedCount (rs : List LogRecord) : Nat :=
  (rs.filter (fun r => decide (isCompletedUpdate r))).length

/-! ### Path resolution (ingestion traversal check)

Python strings are modelled through their character lists so that every
operation reduces inside the kernel.  `splitCharGo` is `str.split(sep)`,
`strStartsWith` is `str.startswith` (exact character prefix), and
`pyAbsNorm` is `os.path.abspath` on an absolute input (segment
normalisation dropping `.` and resolving `..`). -/

/-- Splitting a character list on a separator character, accumulator style
(Python `str.split(sep)` on single-character separators). -/
def splitCharGo (sep : Char) : List Char → List Char → List (List Char)
  | [], acc => [acc.reverse]
  | c :: cs, acc =>
    if c = sep then acc.reverse :: splitCharGo sep cs []
    else splitCharGo sep cs (c :: acc)

/-- Python `str.startswith(p)`: exact character-sequence prefix. -/
def strStartsWith (s p : String) : Bool :=
  p.data.isPrefixOf s.data

/-- Python `str.endswith(p)`: exact character-sequence suffix. -/
def strEndsWith (s p : String) : Bool :=
  p.data.isSuffixOf s.data

/-- Python `str.lower()` (ASCII view). -/
def strLower (s : String) : String :=
  String.mk (s.data.map Char.toLower)

/-- The `/`-separated segments of a path string. -/
def pathSegments (s : String) : List String :=
  (splitCharGo '/' s.data []).map String.mk

/-- Path normalisation over segments, as `os.path.normpath` performs it on
an absolute path: empty and `.` segments are dropped, `..` removes the
previous segment (at the root it is a no-op). -/
def normSegments (parts : List String) : List String :=
  parts.foldl
    (fun acc c =>
      if c = "" then acc
      else if c = "." then acc
      else if c = ".." then acc.dropLast
      else acc ++ [c]) []

/-- Joining normalised segments back into an absolute path string. -/
def joinSegments : List String → List Char
  | [] => []
  | [s] => s.data
  | s :: rest => s.data ++ '/' :: joinSegments rest

/-- Python `os.path.abspath(p)` for an already-absolute `p` (as `temp_dir`
and the joined entry paths are in `IngestorAgent.run`). -/
def pyAbsNorm (p : String) : String :=
  String.mk ('/' :: joinSegments (normSegments (pathSegments p)))

/-- Python `os.path.join(a, name)`: an absolute `name` discards `a`. -/
def pyJoin (a b : String) : String :=
  if strStartsWith b "/" then b else a ++ "/" ++ b

/-- The per-entry containment test of `IngestorAgent.run`:
`os.path.abspath(os.path.join(temp_dir, name)).startswith(os.path.abspath(temp_dir))`. -/
def entryCheck (temp_dir name : String) : Bool :=
  strStartsWith (pyAbsNorm (pyJoin temp_dir name)) (pyAbsNorm temp_dir)

/-- The traversal-check loop of `IngestorAgent.run` over
`zip_ref.namelist()`: `zip_ref.extractall(temp_dir)` is reached exactly
when every entry passes `entryCheck` (the loop raises HTTP 400 at the
first failing entry, before any extraction). -/
def IngestorAgent.zipEntriesPass (temp_dir : String) (namelist : List String) : Bool :=
  namelist.all (entryCheck temp_dir)

/-- A resolved path lies within a directory: it equals the directory or
sits strictly below it, component-wise.  This is the specification's
notion of an archive entry staying inside the extraction directory. -/
def withinDir (path dir : String) : Bool :=
  path = dir || strStartsWith path (dir ++ "/")

/-! ### Caller boundary of ingestion -/

/-- Embeds the guard at the top of the `/convert` route
`convert_vb6_to_dotnet`: `if not zip_file and not github_link:` raise
HTTP 400.  `some 400` is the rejection, `none` lets the request proceed
into `mcp.run`. -/
def convert_vb6_to_dotnet_guard (zip_file github_link : Bool) : Option Nat :=
  if !zip_file && !github_link then some 400 else none

/-- The input branch `IngestorAgent.run` takes: `if zip_file:` the archive
path, `elif github_link:` the clone path, otherwise it falls through to
the directory scan. -/
inductive IngestSource
  | zipBranch
  | githubBranch
  | scanOnly
deriving DecidableEq, Repr

/-- Branch selection of `IngestorAgent.run` from which inputs are
supplied. -/
def IngestorAgent.sourceBranch (zip_file github_link : Bool) : IngestSource :=
  if zip_file then .zipBranch
  else if github_link then .githubBranch
  else .scanOnly

/-! ### Artifact content store and download -/

/-- The artifact content store `OUTPUT_DIR`: conversion id mapped to the
size of `OUTPUT_DIR / (id ++ ".zip")`; an absent key means the file does
not exist. -/
abbrev Store := List (String × Nat)

/-- Deleting `OUTPUT_DIR / (id ++ ".zip")` (`file_path.unlink`). -/
def Store.erase (s : Store) (conversion_id : String) : Store :=
  s.filter (fun p => p.1 ≠ conversion_id)

/-- Writing the artifact file for an id (replacing any previous file). -/
def Store.put (s : Store) (conversion_id : String) (size : Nat) : Store :=
  (conversion_id, size) :: s.erase conversion_id

/-- The caller-visible responses of `download_converted_file`.  `served`
is the delivered `FileResponse`; it is a possible response shape but,
as proved below, unreachable in the source: the `finally` block's
`mcp.logger` calls raise `AttributeError` (the `MCP` class defines no
`logger` attribute), surfacing as `attributeError` (HTTP 500). -/
inductive DownloadResult
  | notFound
  | emptyFile
  | served (content : Nat)
  | attributeError
deriving DecidableEq, Repr

/-- Embeds `download_converted_file` (identical in `server.py` and
`routes.py`).  A missing file yields HTTP 404 (`notFound`) before the
`try` block.  A zero-size file is deleted and yields HTTP 500
(`emptyFile`), also before the `try` block.  Otherwise the handler
enters the `try`/`finally`: whether `return FileResponse(...)` or the
inner `except` runs, the `finally` first deletes the file
(`unlink(missing_ok=True)` succeeds) and then calls `mcp.logger.info`,
which raises `AttributeError` because `MCP` has no `logger` attribute;
the `except` inside the `finally` calls `mcp.logger.error`, raising
`AttributeError` again, and that propagates, discarding the pending
response — the caller receives HTTP 500 and the content is never
delivered.  Returns the response together with the store afterward. -/
def download_converted_file (store : Store) (conversion_id : String) :
    DownloadResult × Store :=
  match store.lookup conversion_id with
  | none => (.notFound, store)
  | some size =>
    if size = 0 then
      (.emptyFile, store.erase conversion_id)
    else
      (.attributeError, store.erase conversion_id)

/-! ### Artifact packaging stage -/

/-- Outcome of the zip-writing body of `FileBuilderAgent.run`: either some
statement in the `try` block raises, leaving an optional partially
written output zip of the given size behind, or the zip write completes
leaving a zip of the given size. -/
inductive BuildOutcome
  | raisesWith (leftoverSize : Option Nat)
  | builds (size : Nat)
deriving DecidableEq, Repr

/-- Embeds `FileBuilderAgent.run` acting on the artifact store.  The
output path is `OUTPUT_DIR / (conversion_id ++ ".zip")`.  A zero-length
zip raises inside the `try`; the `except` handler deletes the output
file if it exists and re-raises, so every failing run erases the
artifact before the error propagates.  Returns the result
(`.ok (bytes, conversion_id)` or the propagated error) and the store
afterward. -/
def FileBuilderAgent.run (store : Store) (conversion_id : String)
    (build : BuildOutcome) : Except Unit (Nat × String) × Store :=
  match build with
  | .raisesWith leftoverSize =>
    let s := match leftoverSize with
      | none => store
      | some n => store.put conversion_id n
    (.error (), s.erase conversion_id)
  | .builds size =>
    let s := store.put conversion_id size
    if size = 0 then
      (.error (), s.erase conversion_id)
    else
      (.ok (size, conversion_id), s)

/-! ### Per-file parsing stage (UnitProcessor) -/

/-- Outcome of `self.lm.forward(prompt=prompt)` — the external inference
call: either it raises (after retries, `InferenceError`) or it returns
the reply text (an empty reply models both `""` and `None`, which the
source treats identically through `if raw:`). -/
inductive TransformOutcome
  | raises
  | reply (text : String)
deriving DecidableEq, Repr

/-- The `metadata` dictionary of a parse result. -/
structure ParseMetadata where
  file_name : String
  module_type : String
  total_lines : Nat
deriving DecidableEq, Repr

/-- The structured result dictionary produced by `ParserModule.forward`
(list elements abstracted as strings; `main_logic` as a key-value
dictionary). -/
structure ParseResult where
  procedures : List String
  events : List String
  globals : List String
  dependencies : List String
  main_logic : List (String × String)
  metadata : ParseMetadata
deriving DecidableEq, Repr

/-- The literal empty structured result returned by the degradation
branches of `ParserModule.forward` and `ParserAgent.run`. -/
def emptyParseResult (file_name : String) (total_lines : Nat) : ParseResult :=
  { procedures := [], events := [], globals := [], dependencies := [],
    main_logic := [],
    metadata := { file_name := file_name, module_type := "Unknown",
                  total_lines := total_lines } }

/-- A successfully JSON-decoded transform reply: the dictionary shape
`ParserModule.forward` reads back.  The `metadata` key may be absent, in
which case the source's `result['metadata']['total_lines'] = ...` raises
and is caught by the catch-all handler. -/
structure DecodedDoc where
  procedures : List String
  events : List String
  globals : List String
  dependencies : List String
  main_logic : List (String × String)
  metadata : Option ParseMetadata
deriving DecidableEq, Repr

/-- Python `len(code.splitlines())`: newline-separated line count, a
trailing newline not opening a final empty line. -/
def splitlinesCount (code : String) : Nat :=
  if code.data = [] then 0
  else if (splitCharGo '\n' code.data []).getLast? = some [] then
    (splitCharGo '\n' code.data []).length - 1
  else
    (splitCharGo '\n' code.data []).length

/-- Embeds `ParserModule.forward`.  `clean` is `clean_json_response` and
`decode` is `json.loads` composed with reading the decoded dictionary
(`none` for `json.JSONDecodeError`); both are parameters at the
inference/decoding boundary.  Every failure branch — the transform
raising, an empty reply, a decoding failure, a decoded document without
`metadata` — returns the literal empty structured result; the function
is total, so no failure propagates. -/
def ParserModule.forward (lm : TransformOutcome) (clean : String → String)
    (decode : String → Option DecodedDoc) (code : String)
    (file_name : String) : ParseResult :=
  match lm with
  | .raises => emptyParseResult file_name (splitlinesCount code)
  | .reply raw =>
    if raw = "" then emptyParseResult file_name (splitlinesCount code)
    else
      match decode (clean raw) with
      | none => emptyParseResult file_name (splitlinesCount code)
      | some doc =>
        match doc.metadata with
        | none => emptyParseResult file_name (splitlinesCount code)
        | some md =>
          { procedures := doc.procedures, events := doc.events,
            globals := doc.globals, dependencies := doc.dependencies,
            main_logic := doc.main_logic,
            metadata := { md with total_lines := splitlinesCount code } }

/-- Python `code[:n]` applied by `ParserAgent.run` when
`len(code) > MAX_CODE_LENGTH`. -/
def pyTruncate (code : String) (n : Nat) : String :=
  if code.length > n then String.mk (code.data.take n) else code

/-- The `module_type` value `ParserAgent.run` patches in from the file
extension. -/
def fileModuleType (file_name : String) : String :=
  if strEndsWith (strLower file_name) ".frm" then "Form"
  else if strEndsWith (strLower file_name) ".bas" then "Module"
  else if strEndsWith (strLower file_name) ".cls" then "Class"
  else "Unknown"

/-- Embeds `ParserAgent.run` for one input file.  `readResult` abstracts
the file read (`none` when `open`/`read` raises, in which case the
handler returns the literal empty dict with `total_lines 0`); the code
is truncated at `max_code_length` (`MAX_CODE_LENGTH`), passed through
`ParserModule.forward`, and the metadata `file_name` and `module_type`
are overwritten.  The function is total: the stage never raises to its
caller. -/
def ParserAgent.run (readResult : Option String) (max_code_length : Nat)
    (lm : TransformOutcome) (clean : String → String)
    (decode : String → Option DecodedDoc) (file_name : String) : ParseResult :=
  match readResult with
  | none => emptyParseResult file_name 0
  | some code0 =>
    let code := pyTruncate code0 max_code_length
    let result := ParserModule.forward lm clean decode code file_name
    { result with
      metadata := { result.metadata with
        file_name := file_name, module_type := fileModuleType file_name } }

/-! ### Generator output schema -/

/-- The six pydantic field names of `CodeFilesModel`. -/
def codeFilesModelFields : List String :=
  ["MyWindowsService_csproj", "Program_cs", "Worker_cs", "appsettings_json",
   "appsettings_Development_json", "Properties__launchSettings_json"]

/-- The configured output schema: the file names of the rendered project
mapping. -/
def outputSchemaNames : List String :=
  ["MyWindowsService.csproj", "Program.cs", "Worker.cs", "appsettings.json",
   "appsettings.Development.json", "Properties/launchSettings.json"]

/-- Pydantic validation `CodeFilesModel(**safe)`: succeeds exactly when
every declared field is present (its value, by the field types of
`CodeFilesModel`, a string). -/
def CodeFilesModel.validate (safe : List (String × String)) :
    Option (List (String × String)) :=
  if codeFilesModelFields.all (fun f => (safe.lookup f).isSome) then some safe
  else none

/-- Embeds `GeneratorModule._build_complete_project`.  The five fixed
template texts (`_get_csproj`, `_get_program_cs`, `_get_appsettings`,
`_get_dev_appsettings`, `_get_launch_settings`) are parameters — their
content is irrelevant to the schema claim — together with the rendered
`Worker.cs` text.  Validation failure raises HTTP 500
("Generated project validation failed"); otherwise the renamed output
mapping is returned. -/
def GeneratorModule.build_complete_project (worker_cs csproj program_cs
    appsettings dev_appsettings launch_settings : String) :
    Except Nat (List (String × String)) :=
  let safe : List (String × String) :=
    [("MyWindowsService_csproj", csproj), ("Program_cs", program_cs),
     ("Worker_cs", worker_cs), ("appsettings_json", appsettings),
     ("appsettings_Development_json", dev_appsettings),
     ("Properties__launchSettings_json", launch_settings)]
  match CodeFilesModel.validate safe with
  | none => .error 500
  | some v =>
    .ok [("MyWindowsService.csproj", ((v.lookup "MyWindowsService_csproj").getD "")),
         ("Program.cs", ((v.lookup "Program_cs").getD "")),
         ("Worker.cs", ((v.lookup "Worker_cs").getD "")),
         ("appsettings.json", ((v.lookup "appsettings_json").getD "")),
         ("appsettings.Development.json", ((v.lookup "appsettings_Development_json").getD "")),
         ("Properties/launchSettings.json", ((v.lookup "Properties__launchSettings_json").getD ""))]

/-! ### Orchestrator (MCP.run) -/

/-- The six pipeline stages, in the fixed order `MCP.run` drives them. -/
inductive StageId
  | ingestor
  | parser
  | context_analyzer
  | summarizer
  | generator
  | filebuilder
deriving DecidableEq, Repr

/-- The fixed stage order of `self.agents` in `MCP.__init__`. -/
def stageOrder : List StageId :=
  [.ingestor, .parser, .context_analyzer, .summarizer, .generator, .filebuilder]

/-- Position of a stage in `stageOrder`. -/
def stageIdx : StageId → Nat
  | .ingestor => 0
  | .parser => 1
  | .context_analyzer => 2
  | .summarizer => 3
  | .generator => 4
  | .filebuilder => 5

/-- The recorded states of the six stage agents. -/
structure AgentStates where
  ingestor : AgentState
  parser : AgentState
  context_analyzer : AgentState
  summarizer : AgentState
  generator : AgentState
  filebuilder : AgentState
deriving DecidableEq, Repr

/-- All six agents `Failed` — the result of the `except` loop of
`MCP.run`. -/
def allFailed : AgentStates :=
  ⟨.Failed, .Failed, .Failed, .Failed, .Failed, .Failed⟩

/-- All six agents `Completed` — the result of a fully successful run. -/
def allCompleted : AgentStates :=
  ⟨.Completed, .Completed, .Completed, .Completed, .Completed, .Completed⟩

/-- The observable outcome of one `MCP.run` invocation: the final recorded
agent states, the pipeline-level `state_update` states in emission
order, whether the `MAX_FILES` cap warning was logged, which stage runs
were invoked (in order), the collected per-file parse results, and
whether the exception propagated to the caller. -/
structure RunOutcome (α : Type) where
  finalStates : AgentStates
  pipelineStates : List AgentState
  capWarning : Bool
  invoked : List StageId
  parsed : List α
  raised : Bool
deriving DecidableEq, Repr

/-- The outcome assembled by the `except` handler of `MCP.run`: a
pipeline-level `Failed` event is appended, every agent is set `Failed`,
and the exception is re-raised. -/
def MCP.failOutcome (α : Type) (pstates : List AgentState) (warn : Bool)
    (inv : List StageId) (parsed : List α) : RunOutcome α :=
  { finalStates := allFailed, pipelineStates := pstates ++ [.Failed],
    capWarning := warn, invoked := inv, parsed := parsed, raised := true }

/-- The part of `MCP.run` after the ingestor has returned its file list:
`files_to_process = files[:MAX_FILES]` and the over-cap warning have
already been computed, and everything downstream of the ingestor
consults the discovered files only through them.  Each `if fails s`
models the awaited run of stage `s` raising. -/
def MCP.stagesAfterIngest {α : Type} (fails : StageId → Bool)
    (files_to_process : List String) (warn : Bool) (parse : String → α) :
    RunOutcome α :=
  if fails .parser then
    MCP.failOutcome α [.Running, .Running] warn [.ingestor, .parser] []
  else
    let parsed_results := files_to_process.map parse
    if fails .context_analyzer then
      MCP.failOutcome α [.Running, .Running] warn
        [.ingestor, .parser, .context_analyzer] parsed_results
    else if fails .summarizer then
      MCP.failOutcome α [.Running, .Running] warn
        [.ingestor, .parser, .context_analyzer, .summarizer] parsed_results
    else if fails .generator then
      MCP.failOutcome α [.Running, .Running] warn
        [.ingestor, .parser, .context_analyzer, .summarizer, .generator]
        parsed_results
    else if fails .filebuilder then
      MCP.failOutcome α [.Running, .Running] warn stageOrder parsed_results
    else
      { finalStates := allCompleted,
        pipelineStates := [.Running, .Running, .Completed],
        capWarning := warn, invoked := stageOrder, parsed := parsed_results,
        raised := false }

/-- Embeds `MCP.run`.  `fails s` abstracts whether the awaited run of
stage `s` raises; `files` is the list the ingestor discovers (consulted
only if the ingestor returns); `maxFiles` is `MAX_FILES`; `parse` is
what one `ParserAgent.run` invocation produces for a file.  The body
mirrors the straight-line source: pipeline `Running` event, defensive
reset, the ingestor run, the second pipeline `Running` event, the
`files[:MAX_FILES]` cap with its warning line before the parser
fan-out, then the remaining stages, with the pipeline `Completed` event
on success and the `except` handler (pipeline `Failed` event, all
agents `Failed`, re-raise) when any stage raises. -/
def MCP.run {α : Type} (fails : StageId → Bool) (files : List String)
    (maxFiles : Nat) (parse : String → α) : RunOutcome α :=
  if fails .ingestor then
    MCP.failOutcome α [.Running] false [.ingestor] []
  else
    MCP.stagesAfterIngest fails (files.take maxFiles)
      (decide (files.length > maxFiles)) parse

/-! ### Concrete sample inputs used by the witness theorems -/

/-- A plain log record (not a state update). -/
def sampleLogRec : LogRecord := ⟨"log", "general", none, none⟩

/-- A completed state-update record of the ingestor stage. -/
def sampleCompletedRec : LogRecord :=
  ⟨"state_update", "ingestor", some "IngestorAgent", some "Completed"⟩

/-- Six completed state-update records, one per stage. -/
def sampleSixCompleted : List LogRecord :=
  [⟨"state_update", "ingestor", some "IngestorAgent", some "Completed"⟩,
   ⟨"state_update", "parser", some "ParserAgent", some "Completed"⟩,
   ⟨"state_update", "context_analyzer", some "ContextAnalyzerAgent", some "Completed"⟩,
   ⟨"state_update", "summarizer", some "SummarizerAgent", some "Completed"⟩,
   ⟨"state_update", "generator", some "GeneratorAgent", some "Completed"⟩,
   ⟨"state_update", "pipeline", some "MCP", some "Completed"⟩]

/-- A failure pattern in which only the context-analyzer stage raises. -/
def failsOnlyContextAnalyzer : StageId → Bool
  | .context_analyzer => true
  | _ => false

/-- A failure pattern in which no stage raises. -/
def noStageFails : StageId → Bool := fun _ => false

/-- A `state_update` log record as `BaseAgent.set_state` and
`MCP.set_pipeline_state` emit it (`stage` is `self.name.lower()` for
agents and `"pipeline"` for the orchestrator). -/
def stateUpdateRec (stage agent state : String) : LogRecord :=
  ⟨"state_update", stage, some agent, some state⟩

/-- The `state_update` records a fully successful single-file run of
`MCP.run` emits, in order, traced from the source: the entry pipeline
`Running`; the defensive `Idle` reset of the five non-ingestor agents;
the ingestor's three in-run `Running` updates (archive path) and its
in-run `Completed`; the second pipeline `Running`; the orchestrator's
explicit ingestor `Completed`; the parser stage (orchestrator `Running`,
per-file `Running` and `Completed`, orchestrator `Completed`); the same
four-update pattern for the context analyzer, summarizer, generator and
filebuilder (orchestrator `Running`, in-run `Running`, in-run
`Completed`, orchestrator `Completed`); and the final pipeline
`Completed`.  Interleaved plain `log` records never change progress, so
they are omitted.  Each stage thus completes twice — once inside the
agent's own `run` and once from `MCP.run` — so the trace carries
thirteen `Completed` state updates (twelve plus one per input file). -/
def successSingleFileRunRecords : List LogRecord :=
  [stateUpdateRec "pipeline" "MCP" "Running",
   stateUpdateRec "parseragent" "ParserAgent" "Idle",
   stateUpdateRec "contextanalyzeragent" "ContextAnalyzerAgent" "Idle",
   stateUpdateRec "summarizeragent" "SummarizerAgent" "Idle",
   stateUpdateRec "generatoragent" "GeneratorAgent" "Idle",
   stateUpdateRec "filebuilderagent" "FileBuilderAgent" "Idle",
   stateUpdateRec "ingestoragent" "IngestorAgent" "Running",
   stateUpdateRec "ingestoragent" "IngestorAgent" "Running",
   stateUpdateRec "ingestoragent" "IngestorAgent" "Running",
   stateUpdateRec "ingestoragent" "IngestorAgent" "Completed",
   stateUpdateRec "pipeline" "MCP" "Running",
   stateUpdateRec "ingestoragent" "IngestorAgent" "Completed",
   stateUpdateRec "parseragent" "ParserAgent" "Running",
   stateUpdateRec "parseragent" "ParserAgent" "Running",
   stateUpdateRec "parseragent" "ParserAgent" "Completed",
   stateUpdateRec "parseragent" "ParserAgent" "Completed",
   stateUpdateRec "contextanalyzeragent" "ContextAnalyzerAgent" "Running",
   stateUpdateRec "contextanalyzeragent" "ContextAnalyzerAgent" "Running",
   stateUpdateRec "contextanalyzeragent" "ContextAnalyzerAgent" "Completed",
   stateUpdateRec "contextanalyzeragent" "ContextAnalyzerAgent" "Completed",
   stateUpdateRec "summarizeragent" "SummarizerAgent" "Running",
   stateUpdateRec "summarizeragent" "SummarizerAgent" "Running",
   stateUpdateRec "summarizeragent" "SummarizerAgent" "Completed",
   stateUpdateRec "summarizeragent" "SummarizerAgent" "Completed",
   stateUpdateRec "generatoragent" "GeneratorAgent" "Running",
   stateUpdateRec "generatoragent" "GeneratorAgent" "Running",
   stateUpdateRec "generatoragent" "GeneratorAgent" "Completed",
   stateUpdateRec "generatoragent" "GeneratorAgent" "Completed",
   stateUpdateRec "filebuilderagent" "FileBuilderAgent" "Running",
   stateUpdateRec "filebuilderagent" "FileBuilderAgent" "Running",
   stateUpdateRec "filebuilderagent" "FileBuilderAgent" "Completed",
   stateUpdateRec "filebuilderagent" "FileBuilderAgent" "Completed",
   stateUpdateRec "pipeline" "MCP" "Completed"]

/-! ## Helper lemmas -/

/-- The progress field after one `emit`: unchanged unless the record is a
`Completed` state update, in which case it is bumped by
`100 // total_stages` and capped at 100. -/
theorem emit_progress_eq (h : SSEHandler) (r : LogRecord) :
    (SSELogHandler.emit h r).1.progress =
      if isCompletedUpdate r then min (h.progress + 100 / total_stages) 100
      else h.progress := rfl

/-- The progress carried by the emitted event equals the handler's updated
progress. -/
theorem emit_event_progress (h : SSEHandler) (r : LogRecord) :
    (SSELogHandler.emit h r).2.progress = (SSELogHandler.emit h r).1.progress := rfl

/-- One `emit` keeps progress within bounds and never decreases it, as long
as it starts within 0–100. -/
theorem emit_progress_bounds (h : SSEHandler) (r : LogRecord)
    (hb : h.progress ≤ 100) :
    h.progress ≤ (SSELogHandler.emit h r).1.progress ∧
      (SSELogHandler.emit h r).1.progress ≤ 100 := by
  rw [emit_progress_eq]
  split
  · simp only [total_stages]
    omega
  · omega

/-- Counting `Completed` state updates, cons case. -/
theorem completedCount_cons (r : LogRecord) (rs : List LogRecord) :
    completedCount (r :: rs) =
      (if isCompletedUpdate r then 1 else 0) + completedCount rs := by
  by_cases hc : isCompletedUpdate r <;>
    simp [completedCount, List.filter_cons, hc, Nat.add_comm]

/-- The progress values along an emission trace form a non-decreasing chain
below 100, starting from the handler's current progress. -/
theorem emitAll_chain (rs : List LogRecord) :
    ∀ h : SSEHandler, h.progress ≤ 100 →
      List.Chain' (· ≤ ·)
        (h.progress :: (emitAll h rs).2.map SSEEvent.progress) ∧
      ∀ e ∈ (emitAll h rs).2, e.progress ≤ 100 := by
  induction rs with
  | nil =>
    intro h hb
    exact ⟨List.chain'_singleton _, by simp [emitAll]⟩
  | cons r rs ih =>
    intro h hb
    obtain ⟨hmono, hle⟩ := emit_progress_bounds h r hb
    obtain ⟨ihc, ihb⟩ := ih (SSELogHandler.emit h r).1 hle
    constructor
    · show List.Chain' (· ≤ ·)
        (h.progress :: (SSELogHandler.emit h r).2.progress ::
          (emitAll (SSELogHandler.emit h r).1 rs).2.map SSEEvent.progress)
      rw [List.chain'_cons, emit_event_progress]
      exact ⟨hmono, ihc⟩
    · intro e he
      have he' : e = (SSELogHandler.emit h r).2 ∨
          e ∈ (emitAll (SSELogHandler.emit h r).1 rs).2 := by
        simpa [emitAll] using he
      rcases he' with rfl | he'
      · rw [emit_event_progress]
        exact hle
      · exact ihb e he'

/-- Closed form for the handler progress after a trace: the initial value
plus `100 // total_stages` per `Completed` state update, capped at 100. -/
theorem emitAll_progress_closed (rs : List LogRecord) :
    ∀ h : SSEHandler, h.progress ≤ 100 →
      (emitAll h rs).1.progress =
        min (h.progress + (100 / total_stages) * completedCount rs) 100 := by
  induction rs with
  | nil =>
    intro h hb
    simp only [emitAll, completedCount, List.filter_nil, List.length_nil,
      Nat.mul_zero, Nat.add_zero]
    omega
  | cons r rs ih =>
    intro h hb
    show (emitAll (SSELogHandler.emit h r).1 rs).1.progress = _
    rw [ih (SSELogHandler.emit h r).1 (emit_progress_bounds h r hb).2,
      emit_progress_eq, completedCount_cons]
    by_cases hc : isCompletedUpdate r
    · rw [if_pos hc, if_pos hc]
      simp only [total_stages]
      omega
    · rw [if_neg hc, if_neg hc]
      simp only [total_stages]
      omega

/-- Looking up a key just erased from the store yields nothing. -/
theorem lookup_erase (s : Store) (i : String) :
    (s.erase i).lookup i = none := by
  induction s with
  | nil => rfl
  | cons p s ih =>
    rcases p with ⟨k, v⟩
    by_cases hp : k = i
    · subst hp
      simpa [Store.erase, List.filter_cons] using ih
    · have hb : (i == k) = false := beq_eq_false_iff_ne.mpr (Ne.symm hp)
      simpa [Store.erase, List.filter_cons, hp, List.lookup, hb] using ih

/-! ## Claim theorems -/

/-- C6: within a single run, the overall progress percentage carried by
successively emitted pipeline events is non-decreasing and always lies
in the range 0–100 (progress is a `Nat`, so 0 is a lower bound by
type). -/
theorem sse_progress_monotone_bounded (h : SSEHandler) (rs : List LogRecord)
    (hb : h.progress ≤ 100) :
    List.Chain' (· ≤ ·) ((emitAll h rs).2.map SSEEvent.progress) ∧
    ∀ e ∈ (emitAll h rs).2, e.progress ≤ 100 :=
  ⟨((emitAll_chain rs h hb).1).tail, (emitAll_chain rs h hb).2⟩

/-- Witness for C6 at a fresh handler and a concrete six-event trace. -/
theorem sse_progress_monotone_bounded_witness :
    SSEHandler.init.progress ≤ 100 ∧
    (List.Chain' (· ≤ ·)
        ((emitAll SSEHandler.init sampleSixCompleted).2.map SSEEvent.progress) ∧
      ∀ e ∈ (emitAll SSEHandler.init sampleSixCompleted).2, e.progress ≤ 100) :=
  ⟨by decide,
   sse_progress_monotone_bounded SSEHandler.init sampleSixCompleted (by decide)⟩

/-- C9 (counterexample): the state-update trace of a successful
single-file run — each of the six stages completing twice, once inside
the agent's own `run` and once from `MCP.run`, plus the pipeline-level
`Completed` — carries thirteen `Completed` state updates, not six, and
feeding it to a fresh handler ends at reported progress 100, not 96. -/
theorem success_run_reaches_full_progress :
    completedCount successSingleFileRunRecords = 13 ∧
    (emitAll SSEHandler.init successSingleFileRunRecords).1.progress = 100 :=
  ⟨by decide, by decide⟩

/-- C9 (amended): the handler's overall progress changes only on a
`state_update` carrying `Completed`, in which case it increases by
exactly `100 // 6 = 16` percentage points capped at 100 regardless of
which stage or agent completed, and no operation of the handler resets
progress back to 0; a successful single-file run emits thirteen
`Completed` state updates (each stage completes twice, plus the
pipeline event), so it ends with reported progress 100 — the cap being
reached from the seventh `Completed` update on. -/
theorem sse_progress_sixteen_capped_at_seven :
    (∀ (h : SSEHandler) (r : LogRecord), ¬ isCompletedUpdate r →
        (SSELogHandler.emit h r).1.progress = h.progress) ∧
    (∀ (h : SSEHandler) (r : LogRecord), isCompletedUpdate r →
        (SSELogHandler.emit h r).1.progress =
          min (h.progress + 100 / total_stages) 100) ∧
    100 / total_stages = 16 ∧
    (∀ (h : SSEHandler) (r : LogRecord),
        (SSELogHandler.emit h r).1.progress = 0 → h.progress = 0) ∧
    (completedCount successSingleFileRunRecords = 13 ∧
      (emitAll SSEHandler.init successSingleFileRunRecords).1.progress = 100) ∧
    (∀ rs : List LogRecord, 7 ≤ completedCount rs →
        (emitAll SSEHandler.init rs).1.progress = 100) := by
  refine ⟨?_, ?_, rfl, ?_, ⟨by decide, by decide⟩, ?_⟩
  · intro h r hr
    rw [emit_progress_eq, if_neg hr]
  · intro h r hr
    rw [emit_progress_eq, if_pos hr]
  · intro h r h0
    rw [emit_progress_eq] at h0
    split at h0
    · simp only [total_stages] at h0
      omega
    · exact h0
  · intro rs hcount
    rw [emitAll_progress_closed rs SSEHandler.init (by decide)]
    simp only [SSEHandler.init, total_stages]
    omega

/-- Witness for the amended C9 at concrete records: a plain log record
leaves progress unchanged, a completed state update bumps it, and the
successful-run trace (thirteen completions, hence at least seven) ends
at 100. -/
theorem sse_progress_sixteen_capped_at_seven_witness :
    (¬ isCompletedUpdate sampleLogRec ∧
      (SSELogHandler.emit SSEHandler.init sampleLogRec).1.progress =
        SSEHandler.init.progress) ∧
    (isCompletedUpdate sampleCompletedRec ∧
      (SSELogHandler.emit SSEHandler.init sampleCompletedRec).1.progress =
        min (SSEHandler.init.progress + 100 / total_stages) 100) ∧
    (7 ≤ completedCount successSingleFileRunRecords ∧
      (emitAll SSEHandler.init successSingleFileRunRecords).1.progress = 100) :=
  ⟨⟨by decide,
    sse_progress_sixteen_capped_at_seven.1 SSEHandler.init sampleLogRec
      (by decide)⟩,
   ⟨by decide,
    sse_progress_sixteen_capped_at_seven.2.1 SSEHandler.init sampleCompletedRec
      (by decide)⟩,
   ⟨by decide,
    sse_progress_sixteen_capped_at_seven.2.2.2.2.2 successSingleFileRunRecords
      (by decide)⟩⟩

/-- C1: if any stage of `MCP.run` raises, the run re-raises to the caller,
every one of the six agents' recorded state is `Failed`, the last
pipeline-level event is `Failed`, and only the stages up to and
including the first failing one were invoked — the remaining stages
never ran. -/
theorem mcp_run_aborts_and_fails_all {α : Type} (fails : StageId → Bool)
    (files : List String) (maxFiles : Nat) (parse : String → α)
    (s : StageId) (hs : fails s = true) :
    (MCP.run fails files maxFiles parse).raised = true ∧
    (MCP.run fails files maxFiles parse).finalStates = allFailed ∧
    (MCP.run fails files maxFiles parse).pipelineStates.getLast? =
      some AgentState.Failed ∧
    ∃ f, fails f = true ∧
      (MCP.run fails files maxFiles parse).invoked =
        stageOrder.take (stageIdx f + 1) ∧
      ∀ t : StageId, stageIdx t < stageIdx f → fails t = false := by
  cases h0 : fails StageId.ingestor with
  | true =>
    refine ⟨?_, ?_, ?_, .ingestor, h0, ?_, fun t ht => absurd ht (by simp [stageIdx])⟩ <;>
      simp [MCP.run, h0, MCP.failOutcome, stageOrder, stageIdx]
  | false =>
    cases h1 : fails StageId.parser with
    | true =>
      refine ⟨?_, ?_, ?_, .parser, h1, ?_,
        fun t ht => by cases t <;> simp_all [stageIdx]⟩ <;>
        simp [MCP.run, MCP.stagesAfterIngest, h0, h1, MCP.failOutcome,
          stageOrder, stageIdx]
    | false =>
      cases h2 : fails StageId.context_analyzer with
      | true =>
        refine ⟨?_, ?_, ?_, .context_analyzer, h2, ?_,
          fun t ht => by cases t <;> simp_all [stageIdx]⟩ <;>
          simp [MCP.run, MCP.stagesAfterIngest, h0, h1, h2, MCP.failOutcome,
            stageOrder, stageIdx]
      | false =>
        cases h3 : fails StageId.summarizer with
        | true =>
          refine ⟨?_, ?_, ?_, .summarizer, h3, ?_,
            fun t ht => by cases t <;> simp_all [stageIdx]⟩ <;>
            simp [MCP.run, MCP.stagesAfterIngest, h0, h1, h2, h3,
              MCP.failOutcome, stageOrder, stageIdx]
        | false =>
          cases h4 : fails StageId.generator with
          | true =>
            refine ⟨?_, ?_, ?_, .generator, h4, ?_,
              fun t ht => by cases t <;> simp_all [stageIdx]⟩ <;>
              simp [MCP.run, MCP.stagesAfterIngest, h0, h1, h2, h3, h4,
                MCP.failOutcome, stageOrder, stageIdx]
          | false =>
            cases h5 : fails StageId.filebuilder with
            | true =>
              refine ⟨?_, ?_, ?_, .filebuilder, h5, ?_,
                fun t ht => by cases t <;> simp_all [stageIdx]⟩ <;>
                simp [MCP.run, MCP.stagesAfterIngest, h0, h1, h2, h3, h4, h5,
                  MCP.failOutcome, stageOrder, stageIdx]
            | false =>
              exfalso
              cases s <;> simp_all

/-- Witness for C1: with only the context-analyzer stage raising, the run
propagates the error, records all six agents `Failed`, ends the pipeline
events with `Failed`, and never invokes the summarizer, generator or
filebuilder. -/
theorem mcp_run_aborts_and_fails_all_witness :
    failsOnlyContextAnalyzer .context_analyzer = true ∧
    ((MCP.run failsOnlyContextAnalyzer ["Main.bas"] 50 (fun f => f)).raised = true ∧
     (MCP.run failsOnlyContextAnalyzer ["Main.bas"] 50 (fun f => f)).finalStates =
       allFailed ∧
     (MCP.run failsOnlyContextAnalyzer ["Main.bas"] 50
         (fun f => f)).pipelineStates.getLast? = some AgentState.Failed ∧
     ∃ f, failsOnlyContextAnalyzer f = true ∧
       (MCP.run failsOnlyContextAnalyzer ["Main.bas"] 50 (fun f => f)).invoked =
         stageOrder.take (stageIdx f + 1) ∧
       ∀ t : StageId, stageIdx t < stageIdx f →
         failsOnlyContextAnalyzer t = false) :=
  ⟨rfl,
   mcp_run_aborts_and_fails_all failsOnlyContextAnalyzer ["Main.bas"] 50
     (fun f => f) .context_analyzer rfl⟩

/-- After the ingestor, every observable component of the run other than
the cap warning is independent of the warning flag. -/
theorem stagesAfterIngest_warn_independent {α : Type} (fails : StageId → Bool)
    (fp : List String) (w w' : Bool) (parse : String → α) :
    (MCP.stagesAfterIngest fails fp w parse).finalStates =
      (MCP.stagesAfterIngest fails fp w' parse).finalStates ∧
    (MCP.stagesAfterIngest fails fp w parse).pipelineStates =
      (MCP.stagesAfterIngest fails fp w' parse).pipelineStates ∧
    (MCP.stagesAfterIngest fails fp w parse).invoked =
      (MCP.stagesAfterIngest fails fp w' parse).invoked ∧
    (MCP.stagesAfterIngest fails fp w parse).parsed =
      (MCP.stagesAfterIngest fails fp w' parse).parsed ∧
    (MCP.stagesAfterIngest fails fp w parse).raised =
      (MCP.stagesAfterIngest fails fp w' parse).raised := by
  unfold MCP.stagesAfterIngest MCP.failOutcome
  split_ifs <;> exact ⟨rfl, rfl, rfl, rfl, rfl⟩

/-- The cap warning flag of the post-ingest stages is exactly the flag it
was invoked with. -/
theorem stagesAfterIngest_capWarning {α : Type} (fails : StageId → Bool)
    (fp : List String) (w : Bool) (parse : String → α) :
    (MCP.stagesAfterIngest fails fp w parse).capWarning = w := by
  unfold MCP.stagesAfterIngest MCP.failOutcome
  split_ifs <;> rfl

/-- The parsed results of the post-ingest stages, when the parser fan-out
does not itself raise, are the parses of exactly the capped file list. -/
theorem stagesAfterIngest_parsed {α : Type} (fails : StageId → Bool)
    (fp : List String) (w : Bool) (parse : String → α)
    (hp : fails .parser = false) :
    (MCP.stagesAfterIngest fails fp w parse).parsed = fp.map parse := by
  unfold MCP.stagesAfterIngest MCP.failOutcome
  split_ifs <;> simp_all

/-- C8: when the ingestor discovers more files than `MAX_FILES`, exactly
the first `MAX_FILES` files in discovery order are parsed, the only
signal is the warning log line, and every observable component of the
run other than that warning equals the run on the capped list. -/
theorem mcp_run_caps_files {α : Type} (fails : StageId → Bool)
    (files : List String) (maxFiles : Nat) (parse : String → α)
    (hing : fails .ingestor = false)
    (hover : files.length > maxFiles) :
    (MCP.run fails files maxFiles parse).capWarning = true ∧
    (MCP.run fails (files.take maxFiles) maxFiles parse).capWarning = false ∧
    (fails .parser = false →
      (MCP.run fails files maxFiles parse).parsed =
        (files.take maxFiles).map parse) ∧
    (MCP.run fails files maxFiles parse).finalStates =
      (MCP.run fails (files.take maxFiles) maxFiles parse).finalStates ∧
    (MCP.run fails files maxFiles parse).pipelineStates =
      (MCP.run fails (files.take maxFiles) maxFiles parse).pipelineStates ∧
    (MCP.run fails files maxFiles parse).invoked =
      (MCP.run fails (files.take maxFiles) maxFiles parse).invoked ∧
    (MCP.run fails files maxFiles parse).parsed =
      (MCP.run fails (files.take maxFiles) maxFiles parse).parsed ∧
    (MCP.run fails files maxFiles parse).raised =
      (MCP.run fails (files.take maxFiles) maxFiles parse).raised := by
  have htake : (files.take maxFiles).take maxFiles = files.take maxFiles := by
    rw [List.take_take, Nat.min_self]
  have hlen : ¬ (files.take maxFiles).length > maxFiles := by
    rw [List.length_take]
    omega
  have hrun : MCP.run fails files maxFiles parse =
      MCP.stagesAfterIngest fails (files.take maxFiles) true parse := by
    unfold MCP.run
    rw [if_neg (by simp [hing]), decide_eq_true hover]
  have hrun' : MCP.run fails (files.take maxFiles) maxFiles parse =
      MCP.stagesAfterIngest fails (files.take maxFiles) false parse := by
    unfold MCP.run
    rw [if_neg (by simp [hing]), htake, decide_eq_false hlen]
  rw [hrun, hrun']
  refine ⟨stagesAfterIngest_capWarning fails _ true parse,
    stagesAfterIngest_capWarning fails _ false parse,
    fun hp => stagesAfterIngest_parsed fails _ true parse hp,
    stagesAfterIngest_warn_independent fails _ true false parse⟩

/-- Witness for C8: three discovered files against a cap of two. -/
theorem mcp_run_caps_files_witness :
    noStageFails .ingestor = false ∧
    (["a.bas", "b.bas", "c.bas"] : List String).length > 2 ∧
    ((MCP.run noStageFails ["a.bas", "b.bas", "c.bas"] 2 (fun f => f)).capWarning = true ∧
     (MCP.run noStageFails (["a.bas", "b.bas", "c.bas"].take 2) 2
        (fun f => f)).capWarning = false ∧
     (noStageFails .parser = false →
       (MCP.run noStageFails ["a.bas", "b.bas", "c.bas"] 2 (fun f => f)).parsed =
         (["a.bas", "b.bas", "c.bas"].take 2).map (fun f => f)) ∧
     (MCP.run noStageFails ["a.bas", "b.bas", "c.bas"] 2 (fun f => f)).finalStates =
       (MCP.run noStageFails (["a.bas", "b.bas", "c.bas"].take 2) 2
         (fun f => f)).finalStates ∧
     (MCP.run noStageFails ["a.bas", "b.bas", "c.bas"] 2 (fun f => f)).pipelineStates =
       (MCP.run noStageFails (["a.bas", "b.bas", "c.bas"].take 2) 2
         (fun f => f)).pipelineStates ∧
     (MCP.run noStageFails ["a.bas", "b.bas", "c.bas"] 2 (fun f => f)).invoked =
       (MCP.run noStageFails (["a.bas", "b.bas", "c.bas"].take 2) 2
         (fun f => f)).invoked ∧
     (MCP.run noStageFails ["a.bas", "b.bas", "c.bas"] 2 (fun f => f)).parsed =
       (MCP.run noStageFails (["a.bas", "b.bas", "c.bas"].take 2) 2
         (fun f => f)).parsed ∧
     (MCP.run noStageFails ["a.bas", "b.bas", "c.bas"] 2 (fun f => f)).raised =
       (MCP.run noStageFails (["a.bas", "b.bas", "c.bas"].take 2) 2
         (fun f => f)).raised) :=
  ⟨rfl, by decide,
   mcp_run_caps_files noStageFails ["a.bas", "b.bas", "c.bas"] 2 (fun f => f)
     rfl (by decide)⟩

/-- C2 (failing input): on the first retrieval of a stored non-empty
artifact the backing file is deleted and the caller receives the
`AttributeError`-driven HTTP 500 — never the archived bytes — and a
second retrieval, like a retrieval of any unknown identifier, reports
not-found; for every store and identifier the `served` outcome is
unreachable, because the `finally` block's `mcp.logger` calls raise
before the pending `FileResponse` can be delivered. -/
theorem download_deletes_but_never_serves :
    (download_converted_file [("abc123", 7)] "abc123").1 =
      DownloadResult.attributeError ∧
    (download_converted_file [("abc123", 7)] "abc123").2.lookup "abc123" =
      none ∧
    (download_converted_file
        (download_converted_file [("abc123", 7)] "abc123").2 "abc123").1 =
      DownloadResult.notFound ∧
    (download_converted_file [] "unknown").1 = DownloadResult.notFound ∧
    ∀ (s : Store) (i : String),
      (download_converted_file s i).1 = DownloadResult.notFound ∨
      (download_converted_file s i).1 = DownloadResult.emptyFile ∨
      (download_converted_file s i).1 = DownloadResult.attributeError := by
  refine ⟨by decide, by decide, by decide, by decide, ?_⟩
  intro s i
  rcases hlk : s.lookup i with _ | size
  · exact Or.inl (by simp [download_converted_file, hlk])
  · by_cases hz : size = 0
    · exact Or.inr (Or.inl (by simp [download_converted_file, hlk, hz]))
    · exact Or.inr (Or.inr (by simp [download_converted_file, hlk, hz]))

/-- C10: whenever `FileBuilderAgent.run` propagates an error, the artifact
entry for the run's conversion identifier is gone from the store, so a
subsequent download of that identifier reports not-found. -/
theorem filebuilder_failure_leaves_no_artifact (store : Store)
    (conversion_id : String) (b : BuildOutcome)
    (herr : (FileBuilderAgent.run store conversion_id b).1 =
      Except.error ()) :
    (FileBuilderAgent.run store conversion_id b).2.lookup conversion_id =
      none ∧
    (download_converted_file (FileBuilderAgent.run store conversion_id b).2
        conversion_id).1 = DownloadResult.notFound := by
  have h2 : (FileBuilderAgent.run store conversion_id b).2.lookup
      conversion_id = none := by
    cases b with
    | raisesWith leftoverSize =>
      cases leftoverSize <;>
        simpa [FileBuilderAgent.run] using
          lookup_erase _ conversion_id
    | builds size =>
      by_cases hn : size = 0
      · simpa [FileBuilderAgent.run, hn] using
          lookup_erase (store.put conversion_id 0) conversion_id
      · exfalso
        simp [FileBuilderAgent.run, hn] at herr
  refine ⟨h2, ?_⟩
  unfold download_converted_file
  rw [h2]

/-- Witness for C10: a build that raises with a partially written zip of
size 3 behind. -/
theorem filebuilder_failure_leaves_no_artifact_witness :
    (FileBuilderAgent.run [] "run1" (.raisesWith (some 3))).1 =
      Except.error () ∧
    ((FileBuilderAgent.run [] "run1" (.raisesWith (some 3))).2.lookup "run1" =
       none ∧
     (download_converted_file
         (FileBuilderAgent.run [] "run1" (.raisesWith (some 3))).2
         "run1").1 = DownloadResult.notFound) :=
  ⟨rfl,
   filebuilder_failure_leaves_no_artifact [] "run1" (.raisesWith (some 3))
     rfl⟩

/-- C3: under each of the three tolerated failure modes of the external
transform — the call raising, an empty reply, or a reply whose cleaned
text fails JSON decoding — the per-file parsing stage returns the
well-formed empty structured result (empty procedures, events, globals
and dependencies lists, empty main logic, default metadata), never
propagating the failure; totality of `ParserAgent.run` embeds that no
exception escapes the stage. -/
theorem parser_stage_degrades_to_empty (max_code_length : Nat)
    (clean : String → String) (decode : String → Option DecodedDoc)
    (code file_name : String) (lm : TransformOutcome)
    (hfail : lm = .raises ∨ lm = .reply "" ∨
      ∃ raw, lm = .reply raw ∧ decode (clean raw) = none) :
    (ParserAgent.run (some code) max_code_length lm clean decode
        file_name).procedures = [] ∧
    (ParserAgent.run (some code) max_code_length lm clean decode
        file_name).events = [] ∧
    (ParserAgent.run (some code) max_code_length lm clean decode
        file_name).globals = [] ∧
    (ParserAgent.run (some code) max_code_length lm clean decode
        file_name).dependencies = [] ∧
    (ParserAgent.run (some code) max_code_length lm clean decode
        file_name).main_logic = [] ∧
    (ParserAgent.run (some code) max_code_length lm clean decode
        file_name).metadata =
      ⟨file_name, fileModuleType file_name,
        splitlinesCount (pyTruncate code max_code_length)⟩ := by
  have hfwd : ParserModule.forward lm clean decode
      (pyTruncate code max_code_length) file_name =
      emptyParseResult file_name
        (splitlinesCount (pyTruncate code max_code_length)) := by
    rcases hfail with rfl | rfl | ⟨raw, rfl, hdec⟩
    · rfl
    · rfl
    · by_cases hraw : raw = ""
      · subst hraw
        rfl
      · simp only [ParserModule.forward]
        rw [if_neg hraw, hdec]
  refine ⟨?_, ?_, ?_, ?_, ?_, ?_⟩ <;>
    simp [ParserAgent.run, hfwd, emptyParseResult]

/-- Witness for C3: a reply the decoder rejects, on a concrete two-line
file. -/
theorem parser_stage_degrades_to_empty_witness :
    ((TransformOutcome.reply "not json") = .raises ∨
      (TransformOutcome.reply "not json") = .reply "" ∨
      ∃ raw, (TransformOutcome.reply "not json") = .reply raw ∧
        (fun _ : String => (none : Option DecodedDoc)) ((fun t : String => t) raw) = none) ∧
    ((ParserAgent.run (some "Dim x\nEnd Sub") 100 (.reply "not json")
        (fun t => t) (fun _ => none) "Main.bas").procedures = [] ∧
     (ParserAgent.run (some "Dim x\nEnd Sub") 100 (.reply "not json")
        (fun t => t) (fun _ => none) "Main.bas").events = [] ∧
     (ParserAgent.run (some "Dim x\nEnd Sub") 100 (.reply "not json")
        (fun t => t) (fun _ => none) "Main.bas").globals = [] ∧
     (ParserAgent.run (some "Dim x\nEnd Sub") 100 (.reply "not json")
        (fun t => t) (fun _ => none) "Main.bas").dependencies = [] ∧
     (ParserAgent.run (some "Dim x\nEnd Sub") 100 (.reply "not json")
        (fun t => t) (fun _ => none) "Main.bas").main_logic = [] ∧
     (ParserAgent.run (some "Dim x\nEnd Sub") 100 (.reply "not json")
        (fun t => t) (fun _ => none) "Main.bas").metadata =
       ⟨"Main.bas", fileModuleType "Main.bas",
         splitlinesCount (pyTruncate "Dim x\nEnd Sub" 100)⟩) :=
  ⟨Or.inr (Or.inr ⟨"not json", rfl, rfl⟩),
   parser_stage_degrades_to_empty 100 (fun t => t) (fun _ => none)
     "Dim x\nEnd Sub" "Main.bas" (.reply "not json")
     (Or.inr (Or.inr ⟨"not json", rfl, rfl⟩))⟩

/-- C5: for every rendered worker text (and template texts), the generator
returns a mapping whose keys are exactly the configured output schema
file names, each carrying string content — the validation-failure
branch of `_build_complete_project` is never the outcome on the path
that returns. -/
theorem generator_output_schema_complete (worker_cs csproj program_cs
    appsettings dev_appsettings launch_settings : String) :
    ∃ m, GeneratorModule.build_complete_project worker_cs csproj program_cs
        appsettings dev_appsettings launch_settings = .ok m ∧
      m.map Prod.fst = outputSchemaNames := by
  exact ⟨_, rfl, rfl⟩

/-- C4 (failing input): the entry `"../jobX"` of an archive extracted into
`"/tmp/job"` resolves to `"/tmp/jobX"`, which lies outside the
extraction directory, yet the traversal check of `IngestorAgent.run`
accepts it (string-prefix comparison without a trailing separator), so
extraction proceeds instead of failing. -/
theorem zip_traversal_check_misses_outside_sibling :
    pyAbsNorm (pyJoin "/tmp/job" "../jobX") = "/tmp/jobX" ∧
    withinDir (pyAbsNorm (pyJoin "/tmp/job" "../jobX"))
      (pyAbsNorm "/tmp/job") = false ∧
    IngestorAgent.zipEntriesPass "/tmp/job" ["../jobX"] = true :=
  ⟨by decide, by decide, by decide⟩

/-- C7 (counterexample): a request supplying both an archive and a
repository reference is not rejected — the guard lets it through and
the ingestor takes the archive branch — contradicting the claim that
supplying both fails before any stage work. -/
theorem convert_accepts_both_inputs :
    convert_vb6_to_dotnet_guard true true = none ∧
    IngestorAgent.sourceBranch true true = IngestSource.zipBranch :=
  ⟨rfl, rfl⟩

/-- C7 (amended): the request is rejected with HTTP 400 before any stage
work exactly when neither an archive nor a repository reference is
supplied; when an archive is present the ingestor takes the archive
branch, ignoring any repository reference. -/
theorem convert_rejects_only_missing_input (zip_file github_link : Bool) :
    (convert_vb6_to_dotnet_guard zip_file github_link = some 400 ↔
      zip_file = false ∧ github_link = false) ∧
    IngestorAgent.sourceBranch true github_link = IngestSource.zipBranch := by
  cases zip_file <;> cases github_link <;>
    simp [convert_vb6_to_dotnet_guard, IngestorAgent.sourceBranch]

end VB6
